import Mathlib

/-!
Shallow embedding of the Technical Indicator & Composite Rating Engine of the
market-lens dashboard (src/src/hooks/useStockData.ts).  JavaScript numbers are
modelled as rationals (ℚ); the one use of Math.sqrt (Bollinger Bands) maps the
rational variance into ℝ via Real.sqrt.  List prices are given newest-last, as
in the source.  Definitions follow the source functions line by line.
-/

namespace MarketLens

/-- The consecutive differences prices[i] - prices[i-1], in order: the values
the two RSI loops iterate over. -/
def deltas : List ℚ → List ℚ
  | a :: b :: rest => (b - a) :: deltas (b :: rest)
  | _ => []

/-- One iteration of the Wilder smoothing loop in calculateRSI: given the pair
(avgGain, avgLoss) and the next price change, produce the updated averages.
`gain = change > 0 ? change : 0` is `max change 0`, and
`loss = change < 0 ? |change| : 0` is `max (-change) 0`. -/
def rsiStep (period : ℕ) (gl : ℚ × ℚ) (change : ℚ) : ℚ × ℚ :=
  ((gl.1 * ((period : ℚ) - 1) + max change 0) / (period : ℚ),
   (gl.2 * ((period : ℚ) - 1) + max (-change) 0) / (period : ℚ))

/-- The (avgGain, avgLoss) pair after seeding from the first `period` deltas
(`for i = 1..period`) and running the smoothing loop over the remaining deltas
(`for i = period+1 .. prices.length-1`). -/
def rsiAvgs (prices : List ℚ) (period : ℕ) : ℚ × ℚ :=
  let ds := deltas prices
  let gains := ((ds.take period).map (fun c => max c 0)).sum
  let losses := ((ds.take period).map (fun c => max (-c) 0)).sum
  (ds.drop period).foldl (rsiStep period) (gains / (period : ℚ), losses / (period : ℚ))

/-- `rs = avgGain / (avgLoss || 1)`: the JavaScript `||` replaces a zero
divisor by 1 (avgLoss is never negative). -/
def rsiRS (avgGain avgLoss : ℚ) : ℚ :=
  avgGain / (if avgLoss = 0 then 1 else avgLoss)

/-- calculateRSI from useStockData.ts (default period is 14 at call sites). -/
def calculateRSI (prices : List ℚ) (period : ℕ) : ℚ :=
  if prices.length < period + 1 then 50
  else
    let a := rsiAvgs prices period
    100 - 100 / (1 + rsiRS a.1 a.2)

/-- calculateSMA from useStockData.ts.  `prices[prices.length-1] || 0` is the
last element, or 0 when the list is empty (the last price is positive at every
call site, so the `|| 0` collapse of a zero price is value-preserving).
`prices.slice(-period)` is the trailing `period`-element window; every call
site passes `period ≥ 1`. -/
def calculateSMA (prices : List ℚ) (period : ℕ) : ℚ :=
  if prices.length < period then (prices.getLast?).getD 0
  else ((prices.drop (prices.length - period)).sum) / (period : ℚ)

/-- calculateEMA from useStockData.ts: seeded with the first price and folded
across the whole sequence with multiplier `2/(period+1)`.  In the else branch
`prices.length ≥ period ≥ 1` at every call site, so the list is non-empty. -/
def calculateEMA (prices : List ℚ) (period : ℕ) : ℚ :=
  if prices.length < period then (prices.getLast?).getD 0
  else
    match prices with
    | [] => 0
    | p :: rest =>
      rest.foldl
        (fun ema price =>
          price * (2 / ((period : ℚ) + 1)) + ema * (1 - 2 / ((period : ℚ) + 1)))
        p

/-- The record returned by calculateMACD. -/
structure MACDResult where
  value : ℚ
  signal : ℚ
  histogram : ℚ
  deriving DecidableEq, Repr

/-- calculateMACD from useStockData.ts: all-zero below 26 samples, otherwise
`macdLine = EMA(prices,12) - EMA(prices,26)` with the simplified signal line
`macdLine * 0.9`. -/
def calculateMACD (prices : List ℚ) : MACDResult :=
  if prices.length < 26 then ⟨0, 0, 0⟩
  else
    let macdLine := calculateEMA prices 12 - calculateEMA prices 26
    let signalLine := macdLine * 0.9
    ⟨macdLine, signalLine, macdLine - signalLine⟩

/-- The record returned by calculateBollingerBands; real-valued because the
standard deviation uses Math.sqrt. -/
structure BollingerResult where
  upper : ℝ
  middle : ℝ
  lower : ℝ

/-- calculateBollingerBands from useStockData.ts (call sites use the default
period 20 and multiplier 2).  The variance is the population variance of the
trailing `period` window around the SMA. -/
noncomputable def calculateBollingerBands (prices : List ℚ) (period : ℕ)
    (multiplier : ℚ) : BollingerResult :=
  let sma := calculateSMA prices period
  if prices.length < period then
    ⟨(sma * 1.02 : ℚ), (sma : ℝ), (sma * 0.98 : ℚ)⟩
  else
    let slice := prices.drop (prices.length - period)
    let variance := (slice.map (fun price => (price - sma) ^ 2)).sum / (period : ℚ)
    let stdDev := Real.sqrt (variance : ℝ)
    ⟨(sma : ℝ) + stdDev * (multiplier : ℝ), (sma : ℝ), (sma : ℝ) - stdDev * (multiplier : ℝ)⟩

/-- The closed enumeration of overall ratings. -/
inductive Rating where
  | strongBuy
  | buy
  | hold
  | sell
  | strongSell
  deriving DecidableEq, Repr

/-- The closed enumeration of risk levels. -/
inductive RiskLevel where
  | low
  | medium
  | high
  deriving DecidableEq, Repr

/-- The closed enumeration of trend labels. -/
inductive Trend where
  | bullish
  | bearish
  | neutral
  deriving DecidableEq, Repr

/-- The closed enumeration of sentiment labels. -/
inductive SentimentLabel where
  | veryPositive
  | positive
  | neutral
  | negative
  | veryNegative
  deriving DecidableEq, Repr

/-- The RSI state interpolated into the first key-factor string. -/
inductive RsiBand where
  | oversold
  | overbought
  | inRange
  deriving DecidableEq, Repr

/-- JavaScript Math.round: round half toward positive infinity. -/
def jsRound (x : ℚ) : ℤ := ⌊x + 1 / 2⌋

/-- The additive scoring of generateAIAnalysis: start at 50 with a neutral
trend, apply the RSI rule (RSI < 30 ⇒ +20 bullish, RSI > 70 ⇒ -20 bearish),
then the moving-average rule (price > sma20 > sma50 > sma200 ⇒ +25 bullish,
price < sma20 < sma50 < sma200 ⇒ -25 bearish), the latter overwriting the
trend label set by the former.  Returns (technicalScore, trend). -/
def scoreAndTrend (currentPrice rsi sma20 sma50 sma200 : ℚ) : ℚ × Trend :=
  let st : ℚ × Trend :=
    if rsi < 30 then (50 + 20, Trend.bullish)
    else if rsi > 70 then (50 - 20, Trend.bearish)
    else (50, Trend.neutral)
  if currentPrice > sma20 ∧ sma20 > sma50 ∧ sma50 > sma200 then
    (st.1 + 25, Trend.bullish)
  else if currentPrice < sma20 ∧ sma20 < sma50 ∧ sma50 < sma200 then
    (st.1 - 25, Trend.bearish)
  else st

/-- The overall-rating threshold chain of generateAIAnalysis, evaluated
top-down. -/
def ratingOfScore (score : ℚ) : Rating :=
  if score ≥ 80 then Rating.strongBuy
  else if score ≥ 65 then Rating.buy
  else if score ≥ 35 then Rating.hold
  else if score ≥ 20 then Rating.sell
  else Rating.strongSell

/-- The sentiment-label threshold chain of generateAIAnalysis. -/
def sentimentLabelOfScore (score : ℚ) : SentimentLabel :=
  if score ≥ 80 then SentimentLabel.veryPositive
  else if score ≥ 60 then SentimentLabel.positive
  else if score ≥ 40 then SentimentLabel.neutral
  else if score ≥ 20 then SentimentLabel.negative
  else SentimentLabel.veryNegative

/-- The risk-level chain of generateAIAnalysis, from the day-over-day percent
change. -/
def riskLevelOfChange (changePercent : ℚ) : RiskLevel :=
  if changePercent > 5 ∨ changePercent < -5 then RiskLevel.high
  else if |changePercent| > 2 then RiskLevel.medium
  else RiskLevel.low

/-- The scalar inputs generateAIAnalysis reads from the stock-data record. -/
structure StockInputs where
  currentPrice : ℚ
  changePercent : ℚ
  volume : ℚ
  avgVolume : ℚ
  low52Week : ℚ
  high52Week : ℚ
  deriving DecidableEq

/-- The four indicator fields generateAIAnalysis destructures. -/
structure TechnicalIndicators where
  rsi : ℚ
  sma20 : ℚ
  sma50 : ℚ
  sma200 : ℚ
  deriving DecidableEq

/-- The data interpolated into the five fixed key-factor template strings
(the string formatting itself, toFixed etc., is abstracted away; the record
holds exactly the values and comparisons the templates interpolate). -/
structure KeyFactorData where
  rsiValue : ℚ
  rsiCondition : RsiBand
  priceAboveSma20 : Bool
  sma20Value : ℚ
  trendLabel : Trend
  volumeIncreased : Bool
  rangePosition : ℚ
  deriving DecidableEq

/-- The sentiment field of the analysis record. -/
structure SentimentInfo where
  score : ℚ
  label : SentimentLabel
  deriving DecidableEq

/-- The record returned by generateAIAnalysis. -/
structure RatingResult where
  overallRating : Rating
  confidence : ℚ
  riskLevel : RiskLevel
  priceTarget : ℚ
  keyFactors : KeyFactorData
  sentiment : SentimentInfo
  technicalScore : ℤ
  fundamentalScore : ℤ
  marketScore : ℤ
  deriving DecidableEq

/-- generateAIAnalysis from useStockData.ts, with the two Math.random() draws
(fundamentalScore noise, then marketScore noise) made explicit as rng 0 and
rng 1. -/
def generateAIAnalysis (rng : ℕ → ℚ) (data : StockInputs)
    (ti : TechnicalIndicators) : RatingResult :=
  let st := scoreAndTrend data.currentPrice ti.rsi ti.sma20 ti.sma50 ti.sma200
  let technicalScore := st.1
  ⟨ratingOfScore technicalScore,
   min (max technicalScore 20) 95,
   riskLevelOfChange data.changePercent,
   data.currentPrice * (1 + (technicalScore - 50) / 200),
   ⟨ti.rsi,
    if ti.rsi < 30 then RsiBand.oversold
    else if ti.rsi > 70 then RsiBand.overbought
    else RsiBand.inRange,
    if data.currentPrice > ti.sma20 then true else false,
    ti.sma20,
    st.2,
    if data.volume > data.avgVolume then true else false,
    (data.currentPrice - data.low52Week) / (data.high52Week - data.low52Week) * 100⟩,
   ⟨technicalScore, sentimentLabelOfScore technicalScore⟩,
   jsRound technicalScore,
   jsRound (technicalScore * 0.9 + rng 0 * 20),
   jsRound (technicalScore * 1.1 + rng 1 * 15)⟩

/-- The prediction record assembled in fetchStockData. -/
structure Prediction where
  nextDay : ℚ
  nextWeek : ℚ
  nextMonth : ℚ
  confidence : ℚ
  trend : Trend
  deriving DecidableEq

/-- The prediction block of fetchStockData, with the three Math.random() draws
(nextDay, nextWeek, nextMonth) made explicit as rng 0, rng 1, rng 2. -/
def generatePrediction (rng : ℕ → ℚ) (currentPrice rsi : ℚ)
    (ai : RatingResult) : Prediction :=
  ⟨currentPrice * (1 + (rng 0 - 0.5) * 0.03),
   currentPrice * (1 + (rsi - 50) / 1000 + (rng 1 - 0.5) * 0.05),
   currentPrice * (1 + (rsi - 50) / 500 + (rng 2 - 0.5) * 0.1),
   ai.confidence,
   if ai.sentiment.score ≥ 60 then Trend.bullish
   else if ai.sentiment.score ≤ 40 then Trend.bearish
   else Trend.neutral⟩

/-! ### Supporting lemmas -/

/-- Folding the EMA step over a constant list leaves the accumulator at the
constant. -/
theorem foldl_ema_const (m c : ℚ) :
    ∀ k : ℕ, (List.replicate k c).foldl (fun ema price => price * m + ema * (1 - m)) c = c := by
  intro k
  induction k with
  | zero => rfl
  | succ n ih =>
    rw [List.replicate_succ, List.foldl_cons]
    have h : c * m + c * (1 - m) = c := by ring
    rw [h]
    exact ih

/-- The EMA of a constant series is the constant, whenever the series is long
enough for the non-degenerate branch. -/
theorem calculateEMA_replicate (n : ℕ) (c : ℚ) (period : ℕ)
    (hn : period ≤ n + 1) :
    calculateEMA (List.replicate (n + 1) c) period = c := by
  unfold calculateEMA
  rw [if_neg (by simp [List.length_replicate]; omega)]
  rw [List.replicate_succ]
  exact foldl_ema_const _ c n

/-! ### Claim theorems -/

/-- C1: the overall rating is mapped from the technical score by the fixed
top-down thresholds — score ≥ 80 gives Strong Buy, else ≥ 65 Buy, else ≥ 35
Hold, else ≥ 20 Sell, else Strong Sell — and the five bands are exhaustive
and pairwise disjoint, inclusive on each lower bound. -/
theorem ratingOfScore_bands (s : ℚ) :
    (80 ≤ s → ratingOfScore s = Rating.strongBuy) ∧
    (65 ≤ s ∧ s < 80 → ratingOfScore s = Rating.buy) ∧
    (35 ≤ s ∧ s < 65 → ratingOfScore s = Rating.hold) ∧
    (20 ≤ s ∧ s < 35 → ratingOfScore s = Rating.sell) ∧
    (s < 20 → ratingOfScore s = Rating.strongSell) ∧
    (80 ≤ s ∨ (65 ≤ s ∧ s < 80) ∨ (35 ≤ s ∧ s < 65) ∨
      (20 ≤ s ∧ s < 35) ∨ s < 20) := by
  refine ⟨fun h => ?_, fun h => ?_, fun h => ?_, fun h => ?_, fun h => ?_, ?_⟩
  · unfold ratingOfScore
    rw [if_pos (by linarith)]
  · unfold ratingOfScore
    rw [if_neg (by linarith [h.2]), if_pos (by linarith [h.1])]
  · unfold ratingOfScore
    rw [if_neg (by linarith [h.2]), if_neg (by linarith [h.2]), if_pos (by linarith [h.1])]
  · unfold ratingOfScore
    rw [if_neg (by linarith [h.2]), if_neg (by linarith [h.2]),
      if_neg (by linarith [h.2]), if_pos (by linarith [h.1])]
  · unfold ratingOfScore
    rw [if_neg (by linarith), if_neg (by linarith), if_neg (by linarith),
      if_neg (by linarith)]
  · by_cases h80 : 80 ≤ s
    · exact Or.inl h80
    · by_cases h65 : 65 ≤ s
      · exact Or.inr (Or.inl ⟨h65, by linarith⟩)
      · by_cases h35 : 35 ≤ s
        · exact Or.inr (Or.inr (Or.inl ⟨h35, by linarith⟩))
        · by_cases h20 : 20 ≤ s
          · exact Or.inr (Or.inr (Or.inr (Or.inl ⟨h20, by linarith⟩)))
          · exact Or.inr (Or.inr (Or.inr (Or.inr (by linarith))))

/-- Witness for C1: the score 50 lands in the Hold band. -/
theorem ratingOfScore_bands_apply : ratingOfScore 50 = Rating.hold :=
  (ratingOfScore_bands 50).2.2.1 ⟨by norm_num, by norm_num⟩

/-- C2: with RSI above 70 and the confirmed uptrend
price > sma20 > sma50 > sma200, the additive scoring yields 50 - 20 + 25 = 55
and the overall rating is Hold, not Buy. -/
theorem overbought_uptrend_hold (rng : ℕ → ℚ) (data : StockInputs)
    (ti : TechnicalIndicators)
    (h70 : ti.rsi > 70) (hp : data.currentPrice > ti.sma20)
    (h1 : ti.sma20 > ti.sma50) (h2 : ti.sma50 > ti.sma200) :
    (scoreAndTrend data.currentPrice ti.rsi ti.sma20 ti.sma50 ti.sma200).1 = 55 ∧
    (generateAIAnalysis rng data ti).technicalScore = 55 ∧
    (generateAIAnalysis rng data ti).overallRating = Rating.hold ∧
    (generateAIAnalysis rng data ti).overallRating ≠ Rating.buy := by
  have hscore :
      scoreAndTrend data.currentPrice ti.rsi ti.sma20 ti.sma50 ti.sma200 =
        (55, Trend.bullish) := by
    simp only [scoreAndTrend]
    rw [if_pos ⟨hp, h1, h2⟩, if_neg (show ¬ ti.rsi < 30 by linarith), if_pos h70]
    norm_num
  refine ⟨by rw [hscore], ?_, ?_, ?_⟩ <;>
    simp only [generateAIAnalysis, hscore]
  · show jsRound 55 = 55
    unfold jsRound
    norm_num
  · show ratingOfScore 55 = Rating.hold
    exact (ratingOfScore_bands 55).2.2.1 ⟨by norm_num, by norm_num⟩
  · show ratingOfScore 55 ≠ Rating.buy
    rw [(ratingOfScore_bands 55).2.2.1 ⟨by norm_num, by norm_num⟩]
    exact fun hcon => Rating.noConfusion hcon

/-- Witness for C2: concrete inputs with RSI 75 and aligned moving averages
4 > 3 > 2 > 1. -/
theorem overbought_uptrend_hold_apply :
    (scoreAndTrend 4 75 3 2 1).1 = 55 ∧
    (generateAIAnalysis (fun _ => 0) ⟨4, 0, 0, 0, 0, 0⟩ ⟨75, 3, 2, 1⟩).technicalScore = 55 ∧
    (generateAIAnalysis (fun _ => 0) ⟨4, 0, 0, 0, 0, 0⟩ ⟨75, 3, 2, 1⟩).overallRating = Rating.hold ∧
    (generateAIAnalysis (fun _ => 0) ⟨4, 0, 0, 0, 0, 0⟩ ⟨75, 3, 2, 1⟩).overallRating ≠ Rating.buy :=
  overbought_uptrend_hold (fun _ => 0) ⟨4, 0, 0, 0, 0, 0⟩ ⟨75, 3, 2, 1⟩
    (by norm_num) (by norm_num) (by norm_num) (by norm_num)

/-- C3: MACD is the all-zero record below 26 samples; otherwise its value is
EMA(prices,12) - EMA(prices,26), its signal line the simplified value * 0.9,
and its histogram value - signal. -/
theorem calculateMACD_spec (prices : List ℚ) :
    (prices.length < 26 → calculateMACD prices = ⟨0, 0, 0⟩) ∧
    (26 ≤ prices.length →
      calculateMACD prices =
        ⟨calculateEMA prices 12 - calculateEMA prices 26,
         (calculateEMA prices 12 - calculateEMA prices 26) * 0.9,
         (calculateEMA prices 12 - calculateEMA prices 26) -
           (calculateEMA prices 12 - calculateEMA prices 26) * 0.9⟩) := by
  constructor
  · intro h
    unfold calculateMACD
    rw [if_pos h]
  · intro h
    unfold calculateMACD
    rw [if_neg (not_lt.mpr h)]

/-- Witness for C3: a one-element series falls in the short branch. -/
theorem calculateMACD_spec_apply : calculateMACD [1] = ⟨0, 0, 0⟩ :=
  (calculateMACD_spec [1]).1 (by norm_num)

/-- Counterexample for C4: a constant series of 26 equal prices has length
at least 26, yet MACD still returns the all-zero record, refuting the claim
that a series of length ≥ 26 never yields all-zero. -/
theorem calculateMACD_allzero_not_exclusive :
    26 ≤ (List.replicate 26 (100 : ℚ)).length ∧
    calculateMACD (List.replicate 26 (100 : ℚ)) = ⟨0, 0, 0⟩ := by
  constructor
  · simp
  · unfold calculateMACD
    rw [if_neg (by simp)]
    rw [calculateEMA_replicate 25 100 12 (by norm_num),
      calculateEMA_replicate 25 100 26 (by norm_num)]
    norm_num

/-- C4 amended: MACD is all-zero for every series shorter than 26, and for a
series of length ≥ 26 it is all-zero exactly when the 12- and 26-period EMAs
coincide (which does happen, e.g. for constant series), so shortness is not
the only source of the all-zero record. -/
theorem calculateMACD_allzero_iff (prices : List ℚ) :
    (prices.length < 26 → calculateMACD prices = ⟨0, 0, 0⟩) ∧
    (26 ≤ prices.length →
      (calculateMACD prices = ⟨0, 0, 0⟩ ↔
        calculateEMA prices 12 = calculateEMA prices 26)) := by
  constructor
  · intro h
    unfold calculateMACD
    rw [if_pos h]
  · intro h
    unfold calculateMACD
    rw [if_neg (not_lt.mpr h)]
    constructor
    · intro hz
      have h1 := congrArg MACDResult.value hz
      simp only at h1
      exact sub_eq_zero.mp h1
    · intro he
      have h0 : calculateEMA prices 12 - calculateEMA prices 26 = 0 :=
        sub_eq_zero.mpr he
      rw [h0]
      norm_num

/-- Witness for C4's amended claim: a two-element series is short, hence
all-zero. -/
theorem calculateMACD_allzero_iff_apply : calculateMACD [1, 2] = ⟨0, 0, 0⟩ :=
  (calculateMACD_allzero_iff [1, 2]).1 (by norm_num)

/-- C8: on a series shorter than the period, SMA and EMA both return the last
element of the list, and 0 on the empty list; both functions are total. -/
theorem sma_ema_short_fallback (prices : List ℚ) (p : ℕ)
    (h : prices.length < p) :
    (prices = [] → calculateSMA prices p = 0 ∧ calculateEMA prices p = 0) ∧
    (∀ x : ℚ, prices.getLast? = some x →
      calculateSMA prices p = x ∧ calculateEMA prices p = x) := by
  unfold calculateSMA calculateEMA
  rw [if_pos h, if_pos h]
  constructor
  · rintro rfl
    simp
  · intro x hx
    simp [hx]

/-- Witness for C8: the one-element series [7] with period 2 returns 7 from
both SMA and EMA. -/
theorem sma_ema_short_fallback_apply :
    calculateSMA [7] 2 = 7 ∧ calculateEMA [7] 2 = 7 :=
  (sma_ema_short_fallback [7] 2 (by norm_num)).2 7 rfl

/-- The Wilder smoothing step keeps both running averages non-negative when
the period is at least 1. -/
theorem rsiStep_nonneg (period : ℕ) (hp : 1 ≤ period) (gl : ℚ × ℚ) (c : ℚ)
    (hg : 0 ≤ gl.1) (hl : 0 ≤ gl.2) :
    0 ≤ (rsiStep period gl c).1 ∧ 0 ≤ (rsiStep period gl c).2 := by
  have hper : (1 : ℚ) ≤ (period : ℚ) := by exact_mod_cast hp
  constructor
  · exact div_nonneg
      (add_nonneg (mul_nonneg hg (by linarith)) (le_max_right c 0))
      (by linarith)
  · exact div_nonneg
      (add_nonneg (mul_nonneg hl (by linarith)) (le_max_right (-c) 0))
      (by linarith)

/-- Folding the Wilder smoothing step preserves non-negativity of both
averages. -/
theorem foldl_rsiStep_nonneg (period : ℕ) (hp : 1 ≤ period) :
    ∀ (ds : List ℚ) (gl : ℚ × ℚ), 0 ≤ gl.1 → 0 ≤ gl.2 →
      0 ≤ (ds.foldl (rsiStep period) gl).1 ∧
      0 ≤ (ds.foldl (rsiStep period) gl).2 := by
  intro ds
  induction ds with
  | nil => exact fun gl hg hl => ⟨hg, hl⟩
  | cons c cs ih =>
    intro gl hg hl
    rw [List.foldl_cons]
    obtain ⟨hg', hl'⟩ := rsiStep_nonneg period hp gl c hg hl
    exact ih _ hg' hl'

/-- Both seeded-and-smoothed averages computed by calculateRSI are
non-negative for periods ≥ 1. -/
theorem rsiAvgs_nonneg (prices : List ℚ) (period : ℕ) (hp : 1 ≤ period) :
    0 ≤ (rsiAvgs prices period).1 ∧ 0 ≤ (rsiAvgs prices period).2 := by
  unfold rsiAvgs
  apply foldl_rsiStep_nonneg period hp
  · exact div_nonneg
      (List.sum_nonneg (by
        intro x hx
        obtain ⟨c, _, rfl⟩ := List.mem_map.mp hx
        exact le_max_right c 0))
      (by positivity)
  · exact div_nonneg
      (List.sum_nonneg (by
        intro x hx
        obtain ⟨c, _, rfl⟩ := List.mem_map.mp hx
        exact le_max_right (-c) 0))
      (by positivity)

/-- The relative-strength ratio is non-negative whenever both averages are. -/
theorem rsiRS_nonneg (g l : ℚ) (hg : 0 ≤ g) (hl : 0 ≤ l) :
    0 ≤ rsiRS g l := by
  unfold rsiRS
  split_ifs with h
  · exact div_nonneg hg (by norm_num)
  · exact div_nonneg hg hl

/-- C5: for any series and any period ≥ 1, RSI lies in [0,100]; a series
shorter than period+1 yields exactly the neutral 50; and when the average
loss is zero the relative-strength ratio is computed as avgGain / 1, so the
division never has a zero divisor. -/
theorem calculateRSI_range (prices : List ℚ) (period : ℕ) (hp : 1 ≤ period) :
    (0 ≤ calculateRSI prices period ∧ calculateRSI prices period ≤ 100) ∧
    (prices.length < period + 1 → calculateRSI prices period = 50) ∧
    (∀ g : ℚ, rsiRS g 0 = g / 1) := by
  refine ⟨?_, ?_, ?_⟩
  · unfold calculateRSI
    split_ifs with h
    · norm_num
    · obtain ⟨hg, hl⟩ := rsiAvgs_nonneg prices period hp
      have hrs : 0 ≤ rsiRS (rsiAvgs prices period).1 (rsiAvgs prices period).2 :=
        rsiRS_nonneg _ _ hg hl
      set rs := rsiRS (rsiAvgs prices period).1 (rsiAvgs prices period).2 with hdef
      have h1 : (0 : ℚ) < 1 + rs := by linarith
      constructor
      · have hle : 100 / (1 + rs) ≤ 100 := by
          apply div_le_self (by norm_num) (by linarith)
        linarith
      · have hge : 0 ≤ 100 / (1 + rs) := div_nonneg (by norm_num) (le_of_lt h1)
        linarith
  · intro h
    unfold calculateRSI
    rw [if_pos h]
  · intro g
    unfold rsiRS
    rw [if_pos rfl]

/-- Witness for C5: the empty series with period 14 gives the neutral RSI 50
inside [0,100]. -/
theorem calculateRSI_range_apply :
    (0 ≤ calculateRSI [] 14 ∧ calculateRSI [] 14 ≤ 100) ∧
    (([] : List ℚ).length < 14 + 1 → calculateRSI [] 14 = 50) ∧
    (∀ g : ℚ, rsiRS g 0 = g / 1) :=
  calculateRSI_range [] 14 (by norm_num)

/-- In a strictly decreasing series every consecutive delta is negative. -/
theorem deltas_neg (l : List ℚ) (h : List.Chain' (· > ·) l) :
    ∀ d ∈ deltas l, d < 0 := by
  induction l with
  | nil => intro d hd; simp [deltas] at hd
  | cons a t ih =>
    cases t with
    | nil => intro d hd; simp [deltas] at hd
    | cons b rest =>
      intro d hd
      rw [show deltas (a :: b :: rest) = (b - a) :: deltas (b :: rest) from rfl] at hd
      rcases List.mem_cons.mp hd with h1 | h2
      · have hab : a > b := (List.chain'_cons.mp h).1
        rw [h1]
        linarith
      · exact ih (List.chain'_cons.mp h).2 d h2

/-- When every remaining delta is non-positive, the Wilder smoothing fold
keeps the average gain at zero. -/
theorem foldl_rsiStep_gain_zero (period : ℕ) :
    ∀ (ds : List ℚ), (∀ d ∈ ds, d ≤ 0) → ∀ l : ℚ,
      ((ds.foldl (rsiStep period) (0, l)).1 = 0) := by
  intro ds
  induction ds with
  | nil => intro _ l; rfl
  | cons c cs ih =>
    intro hds l
    rw [List.foldl_cons]
    have hc : max c 0 = 0 := max_eq_right (hds c (List.mem_cons_self c cs))
    have hstep : rsiStep period (0, l) c =
        (0, (l * ((period : ℚ) - 1) + max (-c) 0) / (period : ℚ)) := by
      unfold rsiStep
      rw [hc]
      norm_num
    rw [hstep]
    exact ih (fun d hd => hds d (List.mem_cons_of_mem c hd)) _

/-- When every delta of the series is non-positive, the seeded-and-smoothed
average gain of calculateRSI is zero. -/
theorem rsiAvgs_gain_zero (prices : List ℚ) (period : ℕ)
    (h : ∀ d ∈ deltas prices, d ≤ 0) : (rsiAvgs prices period).1 = 0 := by
  unfold rsiAvgs
  have hseed : (((deltas prices).take period).map (fun c => max c 0)).sum = 0 := by
    apply List.sum_eq_zero
    intro x hx
    obtain ⟨c, hc, rfl⟩ := List.mem_map.mp hx
    exact max_eq_right (h c (List.take_subset period (deltas prices) hc))
  simp only [hseed, zero_div]
  exact foldl_rsiStep_gain_zero period _
    (fun d hd => h d (List.drop_subset period (deltas prices) hd)) _

/-- Counterexample for C6: the strictly increasing series 1,2,…,16 has length
16 > 14, yet RSI at period 14 evaluates to 50, not 100 (the average loss is
zero, so RS = avgGain / 1 = 1 stays finite and RSI = 100 - 100/2). -/
theorem rsi_increasing_ne_100 :
    List.Chain' (· < ·)
      ([1, 2, 3, 4, 5, 6, 7, 8, 9, 10, 11, 12, 13, 14, 15, 16] : List ℚ) ∧
    14 < ([1, 2, 3, 4, 5, 6, 7, 8, 9, 10, 11, 12, 13, 14, 15, 16] : List ℚ).length ∧
    calculateRSI [1, 2, 3, 4, 5, 6, 7, 8, 9, 10, 11, 12, 13, 14, 15, 16] 14 = 50 ∧
    calculateRSI [1, 2, 3, 4, 5, 6, 7, 8, 9, 10, 11, 12, 13, 14, 15, 16] 14 ≠ 100 := by
  have h50 :
      calculateRSI [1, 2, 3, 4, 5, 6, 7, 8, 9, 10, 11, 12, 13, 14, 15, 16] 14 = 50 := by
    norm_num [calculateRSI, rsiAvgs, rsiStep, rsiRS, deltas]
  refine ⟨?_, by norm_num, h50, by rw [h50]; norm_num⟩
  norm_num [List.chain'_cons]

/-- C6 amended: for periods ≥ 1 and series longer than the period, a strictly
decreasing series gives RSI exactly 0, while a strictly increasing series
gives an RSI strictly below 100 (it only approaches 100; the zero average
loss is replaced by the divisor 1, keeping RS finite). -/
theorem calculateRSI_monotone (prices : List ℚ) (period : ℕ)
    (hp : 1 ≤ period) (hlen : period < prices.length) :
    (List.Chain' (· < ·) prices → calculateRSI prices period < 100) ∧
    (List.Chain' (· > ·) prices → calculateRSI prices period = 0) := by
  have hguard : ¬ prices.length < period + 1 := by omega
  constructor
  · intro _
    unfold calculateRSI
    rw [if_neg hguard]
    obtain ⟨hg, hl⟩ := rsiAvgs_nonneg prices period hp
    have hrs := rsiRS_nonneg _ _ hg hl
    have h1 : (0 : ℚ) < 1 + rsiRS (rsiAvgs prices period).1 (rsiAvgs prices period).2 := by
      linarith
    have h2 : 0 < 100 / (1 + rsiRS (rsiAvgs prices period).1 (rsiAvgs prices period).2) :=
      div_pos (by norm_num) h1
    linarith
  · intro hdec
    unfold calculateRSI
    rw [if_neg hguard]
    have hzero : (rsiAvgs prices period).1 = 0 :=
      rsiAvgs_gain_zero prices period
        (fun d hd => le_of_lt (deltas_neg prices hdec d hd))
    simp only [hzero]
    unfold rsiRS
    rw [zero_div]
    norm_num

/-- Witness for C6's amended claim: the decreasing series [2,1] at period 1
has RSI 0, and an increasing [1,2] at period 1 stays below 100. -/
theorem calculateRSI_monotone_apply :
    calculateRSI [2, 1] 1 = 0 ∧ calculateRSI [1, 2] 1 < 100 :=
  ⟨(calculateRSI_monotone [2, 1] 1 (by norm_num) (by norm_num)).2
      (by norm_num [List.chain'_cons]),
   (calculateRSI_monotone [1, 2] 1 (by norm_num) (by norm_num)).1
      (by norm_num [List.chain'_cons])⟩

/-- The SMA is non-negative on a series of non-negative prices. -/
theorem calculateSMA_nonneg (prices : List ℚ) (period : ℕ)
    (hpos : ∀ p ∈ prices, 0 ≤ p) : 0 ≤ calculateSMA prices period := by
  unfold calculateSMA
  split_ifs with h
  · cases hL : prices.getLast? with
    | none => simp
    | some x =>
      simp only [hL, Option.getD_some]
      obtain ⟨hl', hx⟩ :=
        List.mem_getLast?_eq_getLast (l := prices) (x := x) (Option.mem_def.mpr hL)
      rw [hx]
      exact hpos _ (List.getLast_mem hl')
  · exact div_nonneg
      (List.sum_nonneg fun p hp =>
        hpos p (List.drop_subset (prices.length - period) prices hp))
      (by positivity)

/-- C7: on a non-empty series of positive prices with the default period 20
and multiplier 2, the Bollinger record satisfies lower ≤ middle ≤ upper; a
series shorter than 20 gets the synthetic ±2 percent band around the SMA,
and a series of length ≥ 20 gets the SMA plus/minus twice the population
standard deviation of the trailing 20-price window. -/
theorem bollinger_ordered (prices : List ℚ) (_hne : prices ≠ [])
    (hpos : ∀ p ∈ prices, 0 < p) :
    ((calculateBollingerBands prices 20 2).lower ≤
       (calculateBollingerBands prices 20 2).middle ∧
     (calculateBollingerBands prices 20 2).middle ≤
       (calculateBollingerBands prices 20 2).upper) ∧
    (prices.length < 20 →
      calculateBollingerBands prices 20 2 =
        ⟨((calculateSMA prices 20 * 1.02 : ℚ) : ℝ),
         ((calculateSMA prices 20 : ℚ) : ℝ),
         ((calculateSMA prices 20 * 0.98 : ℚ) : ℝ)⟩) ∧
    (20 ≤ prices.length →
      calculateBollingerBands prices 20 2 =
        ⟨((calculateSMA prices 20 : ℚ) : ℝ) +
           Real.sqrt ((((prices.drop (prices.length - 20)).map
               (fun price => (price - calculateSMA prices 20) ^ 2)).sum /
             ((20 : ℕ) : ℚ) : ℚ)) * ((2 : ℚ) : ℝ),
         ((calculateSMA prices 20 : ℚ) : ℝ),
         ((calculateSMA prices 20 : ℚ) : ℝ) -
           Real.sqrt ((((prices.drop (prices.length - 20)).map
               (fun price => (price - calculateSMA prices 20) ^ 2)).sum /
             ((20 : ℕ) : ℚ) : ℚ)) * ((2 : ℚ) : ℝ)⟩) := by
  have hsma : 0 ≤ calculateSMA prices 20 :=
    calculateSMA_nonneg prices 20 fun p hp => le_of_lt (hpos p hp)
  refine ⟨?_, ?_, ?_⟩
  · simp only [calculateBollingerBands]
    split_ifs with h
    · constructor
      · show ((calculateSMA prices 20 * 0.98 : ℚ) : ℝ) ≤ ((calculateSMA prices 20 : ℚ) : ℝ)
        exact_mod_cast (by linarith : calculateSMA prices 20 * 0.98 ≤ calculateSMA prices 20)
      · show ((calculateSMA prices 20 : ℚ) : ℝ) ≤ ((calculateSMA prices 20 * 1.02 : ℚ) : ℝ)
        exact_mod_cast (by linarith : calculateSMA prices 20 ≤ calculateSMA prices 20 * 1.02)
    · have hsqrt : (0 : ℝ) ≤
          Real.sqrt ((((prices.drop (prices.length - 20)).map
              (fun price => (price - calculateSMA prices 20) ^ 2)).sum /
            ((20 : ℕ) : ℚ) : ℚ)) * ((2 : ℚ) : ℝ) :=
        mul_nonneg (Real.sqrt_nonneg _) (by norm_num)
      constructor
      · exact sub_le_self _ hsqrt
      · exact le_add_of_nonneg_right hsqrt
  · intro h
    simp only [calculateBollingerBands]
    rw [if_pos h]
  · intro h
    simp only [calculateBollingerBands]
    rw [if_neg (not_lt.mpr h)]

/-- Witness for C7: the single positive price [5] falls in the short branch
and its synthetic band is ordered. -/
theorem bollinger_ordered_apply :
    ((calculateBollingerBands [5] 20 2).lower ≤
       (calculateBollingerBands [5] 20 2).middle ∧
     (calculateBollingerBands [5] 20 2).middle ≤
       (calculateBollingerBands [5] 20 2).upper) ∧
    (([5] : List ℚ).length < 20 →
      calculateBollingerBands [5] 20 2 =
        ⟨((calculateSMA [5] 20 * 1.02 : ℚ) : ℝ),
         ((calculateSMA [5] 20 : ℚ) : ℝ),
         ((calculateSMA [5] 20 * 0.98 : ℚ) : ℝ)⟩) :=
  ⟨(bollinger_ordered [5] (by simp) (by norm_num)).1,
   (bollinger_ordered [5] (by simp) (by norm_num)).2.1⟩

/-- C9: two runs of the rating computation and of the prediction computation
over identical inputs, each with a randomness source pinned to return 1/2 on
every draw (so every draw - 0.5 perturbation vanishes), produce identical
RatingResult records (fundamentalScore and marketScore included) and
identical nextDay, nextWeek, nextMonth, confidence and trend. -/
theorem fixed_rng_deterministic (data : StockInputs) (ti : TechnicalIndicators)
    (currentPrice rsi : ℚ) (r1 r2 : ℕ → ℚ)
    (h1 : ∀ n, r1 n = 1 / 2) (h2 : ∀ n, r2 n = 1 / 2) :
    generateAIAnalysis r1 data ti = generateAIAnalysis r2 data ti ∧
    generatePrediction r1 currentPrice rsi (generateAIAnalysis r1 data ti) =
      generatePrediction r2 currentPrice rsi (generateAIAnalysis r2 data ti) := by
  have he : r1 = r2 := funext fun n => by rw [h1 n, h2 n]
  rw [he]
  exact ⟨rfl, rfl⟩

/-- Witness for C9: two syntactically distinct constant-1/2 sources over the
same concrete stock input give equal analysis and prediction records. -/
theorem fixed_rng_deterministic_apply :
    generateAIAnalysis (fun _ => 1 / 2) ⟨1, 0, 1, 1, 0, 2⟩ ⟨50, 1, 1, 1⟩ =
      generateAIAnalysis (fun _ => 2 / 4) ⟨1, 0, 1, 1, 0, 2⟩ ⟨50, 1, 1, 1⟩ ∧
    generatePrediction (fun _ => 1 / 2) 1 50
        (generateAIAnalysis (fun _ => 1 / 2) ⟨1, 0, 1, 1, 0, 2⟩ ⟨50, 1, 1, 1⟩) =
      generatePrediction (fun _ => 2 / 4) 1 50
        (generateAIAnalysis (fun _ => 2 / 4) ⟨1, 0, 1, 1, 0, 2⟩ ⟨50, 1, 1, 1⟩) :=
  fixed_rng_deterministic ⟨1, 0, 1, 1, 0, 2⟩ ⟨50, 1, 1, 1⟩ 1 50
    (fun _ => 1 / 2) (fun _ => 2 / 4) (fun _ => rfl) (fun _ => by norm_num)

/-- The unclamped technical score always lands in the nine-element value set
determined by the two mutually exclusive adjustment pairs. -/
theorem scoreAndTrend_fst_mem (cp rsi s20 s50 s200 : ℚ) :
    (scoreAndTrend cp rsi s20 s50 s200).1 ∈
      ({5, 25, 30, 45, 50, 55, 70, 75, 95} : Set ℚ) := by
  simp only [scoreAndTrend]
  split_ifs <;> norm_num

/-- The unclamped technical score lies between 0 and 100. -/
theorem scoreAndTrend_fst_bounds (cp rsi s20 s50 s200 : ℚ) :
    0 ≤ (scoreAndTrend cp rsi s20 s50 s200).1 ∧
      (scoreAndTrend cp rsi s20 s50 s200).1 ≤ 100 := by
  have h := scoreAndTrend_fst_mem cp rsi s20 s50 s200
  simp only [Set.mem_insert_iff, Set.mem_singleton_iff] at h
  rcases h with h | h | h | h | h | h | h | h | h <;> rw [h] <;> norm_num

/-- C10: the unclamped technical score only takes the nine values
{5, 25, 30, 45, 50, 55, 70, 75, 95} (the two RSI adjustments are mutually
exclusive, as are the two trend adjustments); hence the sentiment score is
always within [0,100] and the confidence within [20,95], and every rating
band and every sentiment label is reachable. -/
theorem technicalScore_nine_values :
    (∀ cp rsi s20 s50 s200 : ℚ,
      (scoreAndTrend cp rsi s20 s50 s200).1 ∈
        ({5, 25, 30, 45, 50, 55, 70, 75, 95} : Set ℚ)) ∧
    (∀ (rng : ℕ → ℚ) (data : StockInputs) (ti : TechnicalIndicators),
      0 ≤ (generateAIAnalysis rng data ti).sentiment.score ∧
      (generateAIAnalysis rng data ti).sentiment.score ≤ 100) ∧
    (∀ (rng : ℕ → ℚ) (data : StockInputs) (ti : TechnicalIndicators),
      20 ≤ (generateAIAnalysis rng data ti).confidence ∧
      (generateAIAnalysis rng data ti).confidence ≤ 95) ∧
    (∀ r : Rating, ∃ (rng : ℕ → ℚ) (data : StockInputs) (ti : TechnicalIndicators),
      (generateAIAnalysis rng data ti).overallRating = r) ∧
    (∀ l : SentimentLabel, ∃ (rng : ℕ → ℚ) (data : StockInputs) (ti : TechnicalIndicators),
      (generateAIAnalysis rng data ti).sentiment.label = l) := by
  refine ⟨scoreAndTrend_fst_mem, ?_, ?_, ?_, ?_⟩
  · intro rng data ti
    show 0 ≤ (scoreAndTrend data.currentPrice ti.rsi ti.sma20 ti.sma50 ti.sma200).1 ∧
      (scoreAndTrend data.currentPrice ti.rsi ti.sma20 ti.sma50 ti.sma200).1 ≤ 100
    exact scoreAndTrend_fst_bounds _ _ _ _ _
  · intro rng data ti
    show 20 ≤ min (max (scoreAndTrend data.currentPrice ti.rsi ti.sma20 ti.sma50 ti.sma200).1 20) 95 ∧
      min (max (scoreAndTrend data.currentPrice ti.rsi ti.sma20 ti.sma50 ti.sma200).1 20) 95 ≤ 95
    exact ⟨le_min (le_max_right _ _) (by norm_num), min_le_right _ _⟩
  · intro r
    cases r with
    | strongBuy =>
      exact ⟨fun _ => 0, ⟨4, 0, 0, 0, 0, 1⟩, ⟨20, 3, 2, 1⟩, by
        show ratingOfScore (scoreAndTrend 4 20 3 2 1).1 = Rating.strongBuy
        norm_num [scoreAndTrend, ratingOfScore]⟩
    | buy =>
      exact ⟨fun _ => 0, ⟨4, 0, 0, 0, 0, 1⟩, ⟨50, 3, 2, 1⟩, by
        show ratingOfScore (scoreAndTrend 4 50 3 2 1).1 = Rating.buy
        norm_num [scoreAndTrend, ratingOfScore]⟩
    | hold =>
      exact ⟨fun _ => 0, ⟨1, 0, 0, 0, 0, 1⟩, ⟨50, 1, 1, 1⟩, by
        show ratingOfScore (scoreAndTrend 1 50 1 1 1).1 = Rating.hold
        norm_num [scoreAndTrend, ratingOfScore]⟩
    | sell =>
      exact ⟨fun _ => 0, ⟨1, 0, 0, 0, 0, 1⟩, ⟨50, 2, 3, 4⟩, by
        show ratingOfScore (scoreAndTrend 1 50 2 3 4).1 = Rating.sell
        norm_num [scoreAndTrend, ratingOfScore]⟩
    | strongSell =>
      exact ⟨fun _ => 0, ⟨1, 0, 0, 0, 0, 1⟩, ⟨80, 2, 3, 4⟩, by
        show ratingOfScore (scoreAndTrend 1 80 2 3 4).1 = Rating.strongSell
        norm_num [scoreAndTrend, ratingOfScore]⟩
  · intro l
    cases l with
    | veryPositive =>
      exact ⟨fun _ => 0, ⟨4, 0, 0, 0, 0, 1⟩, ⟨20, 3, 2, 1⟩, by
        show sentimentLabelOfScore (scoreAndTrend 4 20 3 2 1).1 = SentimentLabel.veryPositive
        norm_num [scoreAndTrend, sentimentLabelOfScore]⟩
    | positive =>
      exact ⟨fun _ => 0, ⟨4, 0, 0, 0, 0, 1⟩, ⟨50, 3, 2, 1⟩, by
        show sentimentLabelOfScore (scoreAndTrend 4 50 3 2 1).1 = SentimentLabel.positive
        norm_num [scoreAndTrend, sentimentLabelOfScore]⟩
    | neutral =>
      exact ⟨fun _ => 0, ⟨1, 0, 0, 0, 0, 1⟩, ⟨50, 1, 1, 1⟩, by
        show sentimentLabelOfScore (scoreAndTrend 1 50 1 1 1).1 = SentimentLabel.neutral
        norm_num [scoreAndTrend, sentimentLabelOfScore]⟩
    | negative =>
      exact ⟨fun _ => 0, ⟨1, 0, 0, 0, 0, 1⟩, ⟨50, 2, 3, 4⟩, by
        show sentimentLabelOfScore (scoreAndTrend 1 50 2 3 4).1 = SentimentLabel.negative
        norm_num [scoreAndTrend, sentimentLabelOfScore]⟩
    | veryNegative =>
      exact ⟨fun _ => 0, ⟨1, 0, 0, 0, 0, 1⟩, ⟨80, 2, 3, 4⟩, by
        show sentimentLabelOfScore (scoreAndTrend 1 80 2 3 4).1 = SentimentLabel.veryNegative
        norm_num [scoreAndTrend, sentimentLabelOfScore]⟩

end MarketLens
